import Mathlib

/-!
Shallow embedding of the glyph texture atlas cache of `egui_cosmic_text`
(`src/atlas.rs`), together with theorems settling the specification claims.

Modelling conventions:
* `CacheKey` (cosmic-text) is opaque and hashable; modelled as `Nat`.
* The rasterizer (`SwashCache::get_image_uncached` over a `FontSystem`) is an
  external, deterministic collaborator (spec section 6); it is modelled as a pure
  function `CacheKey → Option SwashImage` passed to the operations that use it.
* The rectangle packer (`etagere::BucketedAtlasAllocator`) is external and
  interface-only (spec section 6); it is modelled as an abstract state type `P`
  together with a record of operations `PackerOps P`.
* The LRU cache (`lru::LruCache`) is modelled as an association list ordered
  least-recently-used first (head = LRU end, last = most-recently-used end).
* Pixel buffers are total functions `Nat → Nat → Color32`; egui's `Color32`
  constructors are external and modelled as plain RGBA records.
* Rust panics (`assert!`, `unwrap`, `unimplemented!`) are modelled by `Except
  AbortKind`: an `error` result means the program aborts.
* `f32` arithmetic in `GlyphImage::new` is modelled over `ℚ`.
-/

namespace Atlas

/-- egui `Color32`, treated as an opaque RGBA record (external collaborator). -/
structure Color32 where
  r : Nat
  g : Nat
  b : Nat
  a : Nat
  deriving DecidableEq, Repr

/-- egui `Color32::TRANSPARENT`. -/
def Color32.TRANSPARENT : Color32 := ⟨0, 0, 0, 0⟩

/-- egui `Color32::from_rgba_unmultiplied` (external constructor, kept opaque). -/
def Color32.from_rgba_unmultiplied (r g b a : Nat) : Color32 := ⟨r, g, b, a⟩

/-- egui `Color32::from_rgba_premultiplied` (external constructor, kept opaque). -/
def Color32.from_rgba_premultiplied (r g b a : Nat) : Color32 := ⟨r, g, b, a⟩

/-- cosmic-text `SwashContent`. -/
inductive SwashContent where
  | mask
  | color
  | subpixelMask
  deriving DecidableEq, Repr

/-- swash `Placement` (left/top bearing are `i32`, width/height are `u32`). -/
structure Placement where
  left : Int
  top : Int
  width : Nat
  height : Nat
  deriving DecidableEq, Repr

/-- cosmic-text `SwashImage`: placement, content kind and raw byte data. -/
structure SwashImage where
  placement : Placement
  content : SwashContent
  data : List Nat
  deriving DecidableEq, Repr

/-- etagere point (`i32` coordinates). -/
structure Point where
  x : Int
  y : Int
  deriving DecidableEq, Repr

/-- etagere `Rectangle`. -/
structure Rectangle where
  min : Point
  max : Point
  deriving DecidableEq, Repr

/-- etagere `Allocation`: an allocation id plus its rectangle. -/
structure Allocation where
  id : Nat
  rectangle : Rectangle
  deriving DecidableEq, Repr

/-- `GlyphState` from `src/atlas.rs`. -/
structure GlyphState where
  allocation : Allocation
  placement : Placement
  colorable : Bool
  deriving DecidableEq, Repr

/-- cosmic-text `CacheKey`, opaque and hashable; modelled as `Nat`. -/
abbrev CacheKey := Nat

/-- The rasterizer: deterministic external collaborator. -/
abbrev Rasterizer := CacheKey → Option SwashImage

/-- Which Rust panic aborted the program. -/
inductive AbortKind where
  | assertFailed
  | rasterMissed
  | subpixelUnimplemented
  | outOfFuel
  | allocFailedInGrowSpec
  deriving DecidableEq, Repr

/-- `write_glyph_image` from `src/atlas.rs`: write the bitmap of `image` into
the sub-image of the pixel function `f` whose origin is `(x0, y0)` and whose
size is `image.placement` (the callers pass exactly this sub-image via
`sub_image_mut`).  The `zip` with `pixels_mut` writes pixel `(dx, dy)` of the
sub-image iff its row-major index is covered by the data (`chunks_exact 4` for
`Color` content).  `SwashContent::SubpixelMask` hits `unimplemented!`, i.e.
aborts: modelled as `none`. -/
def write_glyph_image (image : SwashImage) (default_color : Color32)
    (f : Nat → Nat → Color32) (x0 y0 : Nat) : Option (Nat → Nat → Color32) :=
  let w := image.placement.width
  let h := image.placement.height
  match image.content with
  | .mask => some fun x y =>
      if x0 ≤ x ∧ x < x0 + w ∧ y0 ≤ y ∧ y < y0 + h ∧
          (y - y0) * w + (x - x0) < image.data.length then
        Color32.from_rgba_unmultiplied default_color.r default_color.g default_color.b
          (image.data.getD ((y - y0) * w + (x - x0)) 0)
      else f x y
  | .color => some fun x y =>
      if x0 ≤ x ∧ x < x0 + w ∧ y0 ≤ y ∧ y < y0 + h ∧
          (y - y0) * w + (x - x0) < image.data.length / 4 then
        Color32.from_rgba_premultiplied
          (image.data.getD (4 * ((y - y0) * w + (x - x0))) 0)
          (image.data.getD (4 * ((y - y0) * w + (x - x0)) + 1) 0)
          (image.data.getD (4 * ((y - y0) * w + (x - x0)) + 2) 0)
          (image.data.getD (4 * ((y - y0) * w + (x - x0)) + 3) 0)
      else f x y
  | .subpixelMask => none

/-- The LRU cache `LruCache<CacheKey, Option<GlyphState>>`, as an association
list ordered least-recently-used first (head = LRU, last = MRU). -/
abbrev Cache := List (CacheKey × Option GlyphState)

/-- Value lookup (`LruCache::peek`-like, order unchanged). -/
def Cache.lookup : Cache → CacheKey → Option (Option GlyphState)
  | [], _ => none
  | e :: t, k => if e.1 = k then some e.2 else Cache.lookup t k

/-- Remove every entry with the given key. -/
def Cache.eraseKey : Cache → CacheKey → Cache
  | [], _ => []
  | e :: t, k => if e.1 = k then Cache.eraseKey t k else e :: Cache.eraseKey t k

/-- `LruCache::put`: insert at the most-recently-used end, replacing any
existing entry for the key. -/
def Cache.put (c : Cache) (k : CacheKey) (v : Option GlyphState) : Cache :=
  c.eraseKey k ++ [(k, v)]

/-- `LruCache::promote`: move an existing key to the most-recently-used end;
no-op when the key is absent. -/
def Cache.promote (c : Cache) (k : CacheKey) : Cache :=
  match c.lookup k with
  | some v => c.eraseKey k ++ [(k, v)]
  | none => c

/-- `LruCache::peek_lru`. -/
def Cache.peekLru (c : Cache) : Option (CacheKey × Option GlyphState) :=
  c.head?

/-- The external rectangle packer (`etagere::BucketedAtlasAllocator`), as an
abstract state type `P` with the interface the cache uses (spec section 6).
`allocate` returns the new packer state on success and leaves the state
unchanged on failure; `deallocate` takes the allocation id. -/
structure PackerOps (P : Type) where
  init : Nat → P
  allocate : P → Nat → Nat → Option (Allocation × P)
  deallocate : P → Nat → P
  grow : P → Nat → P

variable {P : Type}

/-- A pixel buffer (egui `ColorImage` / `imgref::Img`): total pixel function. -/
structure Img where
  width : Nat
  height : Nat
  pix : Nat → Nat → Color32

/-- egui `TextureHandle`: an id plus the GPU-resident pixels. -/
structure TextureHandle where
  id : Nat
  image : Img

/-- `TextureHandle::set_partial`: copy `src` into the texture at `(px, py)`. -/
def TextureHandle.set_partial (t : TextureHandle) (px py : Nat) (src : Img) : TextureHandle :=
  let newpix : Nat → Nat → Color32 := fun x y =>
    if px ≤ x ∧ x < px + src.width ∧ py ≤ y ∧ y < py + src.height then
      src.pix (x - px) (y - py)
    else t.image.pix x y
  { t with image := { t.image with pix := newpix } }

/-- `GlyphImage` from `src/atlas.rs`; `f32` arithmetic is modelled over `ℚ`. -/
structure GlyphImage where
  atlas_texture_id : Nat
  uv_min_x : ℚ
  uv_min_y : ℚ
  uv_width : ℚ
  uv_height : ℚ
  default_color : Color32
  colorable : Bool
  top : Int
  left : Int
  width : ℚ
  height : ℚ
  deriving DecidableEq, Repr

/-- `GlyphImage::new` from `src/atlas.rs`. -/
def GlyphImage.new (atlas_texture : TextureHandle) (rect : Rectangle)
    (placement : Placement) (default_color : Color32) (colorable : Bool) : GlyphImage :=
  let atlas_width : ℚ := atlas_texture.image.width
  let atlas_height : ℚ := atlas_texture.image.height
  let glyph_width : ℚ := placement.width
  let glyph_height : ℚ := placement.height
  { atlas_texture_id := atlas_texture.id
    uv_min_x := (rect.min.x : ℚ) / atlas_width
    uv_min_y := (rect.min.y : ℚ) / atlas_height
    uv_width := glyph_width / atlas_width
    uv_height := glyph_height / atlas_height
    default_color := default_color
    colorable := colorable
    top := placement.top
    left := placement.left
    width := glyph_width
    height := glyph_height }

/-- `TextureAtlas` from `src/atlas.rs`.  The egui `Context` is used only to
read the device maximum texture side (a constructor argument here) and to
create textures (`ctx` is the next fresh texture id). -/
structure TextureAtlas (P : Type) where
  packer : P
  cache : Cache
  in_use : List CacheKey
  atlas_side : Nat
  max_texture_side : Nat
  texture : TextureHandle
  ctx : Nat
  default_color : Color32

/-- `TextureAtlas::new`: side 256, empty transparent texture, empty cache.
`max_texture_side` is the value `ctx.input(|i| i.max_texture_side)` reads. -/
def TextureAtlas.new (ops : PackerOps P) (max_texture_side : Nat)
    (default_color : Color32) : TextureAtlas P :=
  let atlas_side := 256
  { packer := ops.init atlas_side
    cache := []
    in_use := []
    atlas_side := atlas_side
    max_texture_side := max_texture_side
    texture := { id := 0, image :=
      { width := atlas_side, height := atlas_side, pix := fun _ _ => Color32.TRANSPARENT } }
    ctx := 1
    default_color := default_color }

/-- The `for_each` body of `TextureAtlas::grow`: re-rasterize every `Sized`
entry of the list (given in iteration order, most-recently-used first) and
write its bitmap into the fresh image at the entry's stored rectangle.
`unwrap` on a rasterization miss and `unimplemented!` abort. -/
def grow_image (R : Rasterizer) (dc : Color32) :
    List (CacheKey × Option GlyphState) → (Nat → Nat → Color32) →
    Except AbortKind (Nat → Nat → Color32)
  | [], f => .ok f
  | (_, none) :: rest, f => grow_image R dc rest f
  | (k, some g) :: rest, f =>
    match R k with
    | none => .error .rasterMissed
    | some image =>
      match write_glyph_image image dc f
          g.allocation.rectangle.min.x.toNat g.allocation.rectangle.min.y.toNat with
      | none => .error .subpixelUnimplemented
      | some f1 => grow_image R dc rest f1

/-- `TextureAtlas::grow`: assert the side is below the device maximum, double
it (capped), grow the packer bookkeeping, rebuild the backing image by
re-rasterizing every cached `Sized` entry at its stored rectangle, and load
the result as a fresh texture.  The cache itself is not touched.
(`LruCache::iter` runs most-recently-used first, hence `reverse`.) -/
def TextureAtlas.grow (ops : PackerOps P) (R : Rasterizer) (s : TextureAtlas P) :
    Except AbortKind (TextureAtlas P) :=
  if s.atlas_side < s.max_texture_side then
    let new_side := min (s.atlas_side * 2) s.max_texture_side
    match grow_image R s.default_color s.cache.reverse (fun _ _ => Color32.TRANSPARENT) with
    | .error e => .error e
    | .ok f =>
      .ok { s with
        atlas_side := new_side
        packer := ops.grow s.packer new_side
        texture := { id := s.ctx, image := { width := new_side, height := new_side, pix := f } }
        ctx := s.ctx + 1 }
  else .error .assertFailed

/-- The eviction part of `TextureAtlas::alloc_packer`, entered after a failed
allocation attempt: repeatedly inspect the least-recently-used entry; an
in-use key aborts eviction (`return None` in the source), an `Unsized` entry
is popped and discarded without retrying allocation (the inner `loop` of the
source), a `Sized` entry is popped, its packer region deallocated, and the
allocation retried (the outer `loop` of the source, inlined here). -/
def alloc_packer_evict (ops : PackerOps P) (inUse : List CacheKey) (w h : Nat) :
    P → Cache → Option Allocation × P × Cache
  | p, [] => (none, p, [])
  | p, (k, v) :: t =>
    if k ∈ inUse then (none, p, (k, v) :: t)
    else
      match v with
      | none => alloc_packer_evict ops inUse w h p t
      | some g =>
        let p1 := ops.deallocate p g.allocation.id
        match ops.allocate p1 w h with
        | some ap => (some ap.1, ap.2, t)
        | none => alloc_packer_evict ops inUse w h p1 t

/-- The body of `TextureAtlas::alloc_packer`: try to allocate; on failure run
the eviction loop. -/
def alloc_packer_go (ops : PackerOps P) (inUse : List CacheKey) (w h : Nat)
    (p : P) (c : Cache) : Option Allocation × P × Cache :=
  match ops.allocate p w h with
  | some ap => (some ap.1, ap.2, c)
  | none => alloc_packer_evict ops inUse w h p c

/-- `TextureAtlas::alloc_packer` on the atlas state. -/
def TextureAtlas.alloc_packer (ops : PackerOps P) (s : TextureAtlas P)
    (width height : Nat) : Option Allocation × TextureAtlas P :=
  let r := alloc_packer_go ops s.in_use width height s.packer s.cache
  (r.1, { s with packer := r.2.1, cache := r.2.2 })

/-- The success continuation of the `loop` in the miss branch of
`TextureAtlas::alloc`, after the packer allocation `x` succeeded: insert the
`Sized` entry, mark the key in-use, write the pixels into a fresh transparent
buffer and upload it at the allocated rectangle, then build the
`GlyphImage`. -/
def alloc_finish (k : CacheKey) (image : SwashImage) (x : Allocation)
    (s1 : TextureAtlas P) : Except AbortKind (Option GlyphImage × TextureAtlas P) :=
  let gs : GlyphState :=
    { allocation := x
      placement := image.placement
      colorable := decide (image.content = SwashContent.mask) }
  let s2 := { s1 with cache := s1.cache.put k (some gs), in_use := s1.in_use.insert k }
  match write_glyph_image image s2.default_color (fun _ _ => Color32.TRANSPARENT) 0 0 with
  | none => .error .subpixelUnimplemented
  | some pixfn =>
    let simg : Img :=
      { width := image.placement.width, height := image.placement.height, pix := pixfn }
    let tex := s2.texture.set_partial x.rectangle.min.x.toNat x.rectangle.min.y.toNat simg
    let s3 := { s2 with texture := tex }
    .ok (some (GlyphImage.new s3.texture gs.allocation.rectangle gs.placement
      s3.default_color gs.colorable), s3)

/-- The `loop` in the miss branch of `TextureAtlas::alloc`: allocate packer
space, growing the atlas until allocation succeeds; then finish via
`alloc_finish`.  Each successful grow strictly increases `atlas_side` (which
stays at most `max_texture_side`, with a failing assert once it reaches it),
so `max_texture_side + 1` rounds of fuel are never exhausted; `.outOfFuel`
only models the non-termination of degenerate unreachable states (side 0). -/
def TextureAtlas.alloc_loop (ops : PackerOps P) (R : Rasterizer) (k : CacheKey)
    (image : SwashImage) :
    Nat → TextureAtlas P → Except AbortKind (Option GlyphImage × TextureAtlas P)
  | 0, _ => .error .outOfFuel
  | fuel + 1, s =>
    match s.alloc_packer ops image.placement.width image.placement.height with
    | (none, s1) =>
      match s1.grow ops R with
      | .error e => .error e
      | .ok s2 => TextureAtlas.alloc_loop ops R k image fuel s2
    | (some x, s1) => alloc_finish k image x s1

/-- `TextureAtlas::alloc`: the cache's `resolve` operation. -/
def TextureAtlas.alloc (ops : PackerOps P) (R : Rasterizer) (k : CacheKey)
    (s : TextureAtlas P) : Except AbortKind (Option GlyphImage × TextureAtlas P) :=
  match s.cache.lookup k with
  | none =>
    match R k with
    | none => .ok (none, s)
    | some image =>
      if image.placement.width = 0 ∨ image.placement.height = 0 then
        .ok (none, { s with cache := s.cache.put k none, in_use := s.in_use.insert k })
      else
        TextureAtlas.alloc_loop ops R k image (s.max_texture_side + 1) s
  | some v =>
    -- `LruCache::get` promotes on a hit; `TextureAtlas::promote` then promotes
    -- again and inserts the key into the in-use set.
    let s1 := { s with cache := (s.cache.promote k).promote k, in_use := s.in_use.insert k }
    match v with
    | none => .ok (none, s1)
    | some g =>
      .ok (some (GlyphImage.new s1.texture g.allocation.rectangle g.placement
        s1.default_color g.colorable), s1)

/-- `TextureAtlas::trim`: clear the in-use set. -/
def TextureAtlas.trim (s : TextureAtlas P) : TextureAtlas P :=
  { s with in_use := [] }

/-- `TextureAtlas::update_max_texture_side`; `m` is the value the egui context
currently reports for `max_texture_side`. -/
def TextureAtlas.update_max_texture_side (s : TextureAtlas P) (m : Nat) : TextureAtlas P :=
  { s with max_texture_side := m }

/-! ### Concrete instances used by witnesses and counterexamples -/

/-- A concrete packer state: a counter of allocations performed so far. -/
abbrev CountPacker := Nat

/-- A trivial concrete packer: allocation number `i` receives the rectangle
with corner `(8 i, 0)`; deallocation and growth keep the counter. -/
def sops : PackerOps CountPacker where
  init := fun _ => 0
  allocate := fun p w h => some (⟨p, ⟨⟨8 * (p : Int), 0⟩, ⟨8 * (p : Int) + w, h⟩⟩⟩, p + 1)
  deallocate := fun p _ => p
  grow := fun p _ => p

/-- A concrete packer whose allocation always fails (exhausted atlas). -/
def failOps : PackerOps CountPacker where
  init := fun _ => 0
  allocate := fun _ _ _ => none
  deallocate := fun p _ => p
  grow := fun p _ => p

/-- A concrete default color. -/
def dcol : Color32 := ⟨200, 100, 50, 255⟩

/-- A concrete 2 by 2 mask bitmap. -/
def maskImg : SwashImage :=
  { placement := { left := 1, top := 2, width := 2, height := 2 }
    content := .mask
    data := [10, 20, 30, 40] }

/-- A concrete bitmap of zero height (whitespace glyph). -/
def emptyImg : SwashImage :=
  { placement := { left := 0, top := 0, width := 3, height := 0 }
    content := .mask
    data := [] }

/-- A concrete 2 by 2 subpixel-mask bitmap. -/
def subpixelImg : SwashImage :=
  { placement := { left := 0, top := 0, width := 2, height := 2 }
    content := .subpixelMask
    data := [1, 2, 3, 4] }

/-- A concrete rasterizer that succeeds with `maskImg` on every key. -/
def maskR : Rasterizer := fun _ => some maskImg

/-- A concrete rasterizer producing a zero-height bitmap on every key. -/
def zeroR : Rasterizer := fun _ => some emptyImg

/-- A concrete rasterizer producing a subpixel-mask bitmap on every key. -/
def subR : Rasterizer := fun _ => some subpixelImg

/-- A concrete rasterizer that never produces a bitmap. -/
def noneR : Rasterizer := fun _ => none

/-- A concrete `Sized` glyph state sitting at the rectangle with corner
`(0, 0)` (as the first allocation of `sops` would produce for `maskImg`). -/
def gs0 : GlyphState :=
  { allocation := ⟨0, ⟨⟨0, 0⟩, ⟨2, 2⟩⟩⟩
    placement := maskImg.placement
    colorable := true }

/-! ### Concrete states for witnesses -/

/-- A fresh atlas over the trivial packer, device maximum 1024. -/
def st0 : TextureAtlas CountPacker := TextureAtlas.new sops 1024 dcol

/-- An atlas holding one `Unsized` entry for key 4, not in use. -/
def stW9 : TextureAtlas CountPacker := { st0 with cache := [(4, none)] }

/-- An atlas whose in-use set is exactly key 4. -/
def stW9b : TextureAtlas CountPacker := { st0 with in_use := [4] }


/-- The state `TextureAtlas::alloc` produces on a cache hit: the entry is
promoted (twice: by the LRU `get` and by `promote`) and marked in-use. -/
def hitState (s : TextureAtlas P) (k : CacheKey) : TextureAtlas P :=
  { s with cache := (s.cache.promote k).promote k, in_use := s.in_use.insert k }

/-- Every cached `Sized` entry re-rasterizes successfully to a bitmap that is
not a subpixel mask.  This holds for every reachable cache because a `Sized`
entry is created only after a successful rasterization and a successful
`write_glyph_image`, and the rasterizer is deterministic. -/
def RasterInv (R : Rasterizer) (c : Cache) : Prop :=
  ∀ k g, (k, some g) ∈ c → ∃ img, R k = some img ∧ img.content ≠ SwashContent.subpixelMask

/-- The atlas side is positive and within the device maximum. -/
def SideInv (s : TextureAtlas P) : Prop :=
  1 ≤ s.atlas_side ∧ s.atlas_side ≤ s.max_texture_side


/-! ### Driver operation sequences (for the growth-monotonicity claim) -/

/-- The operations a frame driver performs on a constructed atlas (growth
happens inside `alloc`). -/
inductive AtlasOp where
  | opAlloc (k : CacheKey)
  | opTrim
  deriving DecidableEq, Repr

/-- One driver operation; the glyph image returned by `alloc` is discarded. -/
def stepOp (ops : PackerOps P) (R : Rasterizer) (s : TextureAtlas P) :
    AtlasOp → Except AbortKind (TextureAtlas P)
  | .opAlloc k => (TextureAtlas.alloc ops R k s).map (fun rs => rs.2)
  | .opTrim => .ok s.trim

/-- Run a sequence of driver operations, stopping at the first abort. -/
def runSeq (ops : PackerOps P) (R : Rasterizer) :
    List AtlasOp → TextureAtlas P → Except AbortKind (TextureAtlas P)
  | [], s => .ok s
  | op :: rest, s =>
    match stepOp ops R s op with
    | .error e => .error e
    | .ok s1 => runSeq ops R rest s1

/-! ### Pixel-level analysis of growth (for the growth-copy claim) -/

/-- The pixel box `[x, x+w) × [y, y+h)` a bitmap occupies. -/
structure Box where
  x : Nat
  y : Nat
  w : Nat
  h : Nat
  deriving DecidableEq, Repr

/-- Membership in a pixel box. -/
def inBox (b : Box) (x y : Nat) : Prop :=
  b.x ≤ x ∧ x < b.x + b.w ∧ b.y ≤ y ∧ y < b.y + b.h

/-- The box a cache entry writes during growth: its stored rectangle corner
and the dimensions of its re-rasterized bitmap. -/
def entryBox (R : Rasterizer) (e : CacheKey × Option GlyphState) : Option Box :=
  e.2.bind fun g => (R e.1).map fun img =>
    ⟨g.allocation.rectangle.min.x.toNat, g.allocation.rectangle.min.y.toNat,
      img.placement.width, img.placement.height⟩

/-- Two cache entries write to disjoint pixel boxes (the packer guarantees
this for live allocations). -/
def EntryDisj (R : Rasterizer) (e e1 : CacheKey × Option GlyphState) : Prop :=
  ∀ b b1, entryBox R e = some b → entryBox R e1 = some b1 →
    ∀ x y, inBox b x y → ¬ inBox b1 x y

/-! ### The claimed growth behavior, modelled from the spec's words -/

/-- The per-entry loop of the growth behavior the spec describes: for each
`Sized` entry, re-rasterize, allocate a FRESH packer region in the grown
space, write the bitmap at the new region, and update the entry's stored
region to the new one.  (The spec asserts the fresh allocation succeeds; a
failure is modelled as an abort of its own kind.) -/
def grow_spec_entries (ops : PackerOps P) (R : Rasterizer) (dc : Color32) :
    List (CacheKey × Option GlyphState) → P → (Nat → Nat → Color32) →
    Except AbortKind (List (CacheKey × Option GlyphState) × P × (Nat → Nat → Color32))
  | [], p, f => .ok ([], p, f)
  | (k, none) :: rest, p, f =>
    (grow_spec_entries ops R dc rest p f).map fun rpf => ((k, none) :: rpf.1, rpf.2)
  | (k, some g) :: rest, p, f =>
    match R k with
    | none => .error .rasterMissed
    | some image =>
      match ops.allocate p image.placement.width image.placement.height with
      | none => .error .allocFailedInGrowSpec
      | some ap =>
        match write_glyph_image image dc f
            ap.1.rectangle.min.x.toNat ap.1.rectangle.min.y.toNat with
        | none => .error .subpixelUnimplemented
        | some f1 =>
          (grow_spec_entries ops R dc rest ap.2 f1).map fun rpf =>
            ((k, some { g with allocation := ap.1 }) :: rpf.1, rpf.2)

/-- Growth as the spec's words describe it (section 4.1 step 5): double the
side (capped), grow the packer, then re-rasterize and RE-PACK every
currently-cached `Sized` entry into a fresh packer region of the grown
space, copying each bitmap into the new backing store at its NEW location
and updating the entry's stored region to the new region.  This definition
exists only to be compared against the source's `TextureAtlas.grow`. -/
def TextureAtlas.grow_specModel (ops : PackerOps P) (R : Rasterizer)
    (s : TextureAtlas P) : Except AbortKind (TextureAtlas P) :=
  if s.atlas_side < s.max_texture_side then
    let new_side := min (s.atlas_side * 2) s.max_texture_side
    match grow_spec_entries ops R s.default_color s.cache
        (ops.grow s.packer new_side) (fun _ _ => Color32.TRANSPARENT) with
    | .error e => .error e
    | .ok rpf =>
      .ok { s with
            atlas_side := new_side
            cache := rpf.1
            packer := rpf.2.1
            texture := ⟨s.ctx, ⟨new_side, new_side, rpf.2.2⟩⟩
            ctx := s.ctx + 1 }
  else .error .assertFailed

/-- A concrete atlas holding one `Sized` entry for key 3 whose stored packer
region has corner `(0, 0)`, with the counting packer at 5 (so the next fresh
allocation of `sops` has corner `(40, 0)`). -/
def stC1 : TextureAtlas CountPacker :=
  { st0 with cache := [(3, some gs0)], packer := 5 }

/-! ### Characterization of `alloc_packer` -/

/-- The allocation ids of the `Sized` entries of a cache segment, in order. -/
def sized_ids (l : List (CacheKey × Option GlyphState)) : List Nat :=
  l.filterMap fun e => e.2.map fun g => g.allocation.id

/-- Deallocate a list of packer regions in order. -/
def dealloc_fold (ops : PackerOps P) (p : P) (ids : List Nat) : P :=
  ids.foldl ops.deallocate p

/-- What `alloc_packer` does, as a relation between its inputs and its result
`r = (allocation?, packer, cache)`: some prefix of the LRU-first cache list is
evicted; every evicted key is outside the in-use set; the evicted `Sized`
regions (and only those) are deallocated in LRU-first order; a `none` result
means the last allocation attempt failed and eviction stopped because the
cache ran empty or the least-recently-used survivor is in use; a `some`
result is the successful allocation performed after those deallocations. -/
def PackSpec (ops : PackerOps P) (inUse : List CacheKey) (w h : Nat) (p : P)
    (c : Cache) (r : Option Allocation × P × Cache) : Prop :=
  ∃ n, n ≤ c.length ∧
    r.2.2 = c.drop n ∧
    (∀ e ∈ c.take n, e.1 ∉ inUse) ∧
    (r.1 = none →
      r.2.1 = dealloc_fold ops p (sized_ids (c.take n)) ∧
      ops.allocate r.2.1 w h = none ∧
      (c.drop n = [] ∨ ∃ k v, (c.drop n).head? = some (k, v) ∧ k ∈ inUse)) ∧
    (∀ a, r.1 = some a →
      ops.allocate (dealloc_fold ops p (sized_ids (c.take n))) w h = some (a, r.2.1))

theorem evict_nil (ops : PackerOps P) (inUse : List CacheKey) (w h : Nat) (p : P) :
    alloc_packer_evict ops inUse w h p [] = (none, p, []) := by
  simp [alloc_packer_evict]

theorem evict_cons_inuse (ops : PackerOps P) (inUse : List CacheKey) (w h : Nat)
    (p : P) (k : CacheKey) (v : Option GlyphState) (t : Cache) (hk : k ∈ inUse) :
    alloc_packer_evict ops inUse w h p ((k, v) :: t) = (none, p, (k, v) :: t) := by
  simp [alloc_packer_evict, hk]

theorem evict_cons_unsized (ops : PackerOps P) (inUse : List CacheKey) (w h : Nat)
    (p : P) (k : CacheKey) (t : Cache) (hk : k ∉ inUse) :
    alloc_packer_evict ops inUse w h p ((k, none) :: t) =
      alloc_packer_evict ops inUse w h p t := by
  simp [alloc_packer_evict, hk]

theorem evict_cons_sized_hit (ops : PackerOps P) (inUse : List CacheKey) (w h : Nat)
    (p : P) (k : CacheKey) (g : GlyphState) (t : Cache) (hk : k ∉ inUse)
    (ap : Allocation × P)
    (hA1 : ops.allocate (ops.deallocate p g.allocation.id) w h = some ap) :
    alloc_packer_evict ops inUse w h p ((k, some g) :: t) = (some ap.1, ap.2, t) := by
  simp [alloc_packer_evict, hk, hA1]

theorem evict_cons_sized_miss (ops : PackerOps P) (inUse : List CacheKey) (w h : Nat)
    (p : P) (k : CacheKey) (g : GlyphState) (t : Cache) (hk : k ∉ inUse)
    (hA1 : ops.allocate (ops.deallocate p g.allocation.id) w h = none) :
    alloc_packer_evict ops inUse w h p ((k, some g) :: t) =
      alloc_packer_evict ops inUse w h (ops.deallocate p g.allocation.id) t := by
  simp [alloc_packer_evict, hk, hA1]

theorem alloc_packer_evict_spec (ops : PackerOps P) (inUse : List CacheKey)
    (w h : Nat) :
    ∀ (c : Cache) (p : P), ops.allocate p w h = none →
      PackSpec ops inUse w h p c (alloc_packer_evict ops inUse w h p c) := by
  intro c
  induction c with
  | nil =>
    intro p hA
    rw [evict_nil]
    exact ⟨0, by simp, rfl, by simp, fun _ => ⟨rfl, hA, Or.inl rfl⟩,
      fun a ha => by simp at ha⟩
  | cons e t ih =>
    intro p hA
    obtain ⟨k, v⟩ := e
    by_cases hk : k ∈ inUse
    · rw [evict_cons_inuse ops inUse w h p k v t hk]
      exact ⟨0, by simp, rfl, by simp, fun _ => ⟨rfl, hA, Or.inr ⟨k, v, rfl, hk⟩⟩,
        fun a ha => by simp at ha⟩
    · cases v with
      | none =>
        rw [evict_cons_unsized ops inUse w h p k t hk]
        obtain ⟨n, hn, hdrop, htake, hnone, hsome⟩ := ih p hA
        refine ⟨n + 1, by simpa using hn, by simpa using hdrop, ?_, ?_, ?_⟩
        · intro x hx
          rcases (List.mem_cons).1 (by simpa using hx) with h1 | h1
          · subst h1; exact hk
          · exact htake x h1
        · intro h0
          obtain ⟨h1, h2, h3⟩ := hnone h0
          refine ⟨?_, h2, by simpa using h3⟩
          simpa [sized_ids, dealloc_fold] using h1
        · intro a ha
          have := hsome a ha
          simpa [sized_ids, dealloc_fold] using this
      | some g =>
        cases hA1 : ops.allocate (ops.deallocate p g.allocation.id) w h with
        | some ap =>
          rw [evict_cons_sized_hit ops inUse w h p k g t hk ap hA1]
          refine ⟨1, by simp, by simp, by simpa using hk,
            fun hno => by simp at hno, ?_⟩
          intro a ha
          simp only [Option.some.injEq] at ha
          subst ha
          simpa [sized_ids, dealloc_fold] using hA1
        | none =>
          rw [evict_cons_sized_miss ops inUse w h p k g t hk hA1]
          obtain ⟨n, hn, hdrop, htake, hnone, hsome⟩ :=
            ih (ops.deallocate p g.allocation.id) hA1
          refine ⟨n + 1, by simpa using hn, by simpa using hdrop, ?_, ?_, ?_⟩
          · intro x hx
            rcases (List.mem_cons).1 (by simpa using hx) with h1 | h1
            · subst h1; exact hk
            · exact htake x h1
          · intro h0
            obtain ⟨h1, h2, h3⟩ := hnone h0
            refine ⟨?_, h2, by simpa using h3⟩
            simpa [sized_ids, dealloc_fold] using h1
          · intro a ha
            have := hsome a ha
            simpa [sized_ids, dealloc_fold] using this

theorem alloc_packer_spec (ops : PackerOps P) (inUse : List CacheKey) (w h : Nat)
    (c : Cache) (p : P) :
    PackSpec ops inUse w h p c (alloc_packer_go ops inUse w h p c) := by
  rw [alloc_packer_go]
  cases hA : ops.allocate p w h with
  | none => exact alloc_packer_evict_spec ops inUse w h c p hA
  | some ap =>
    refine ⟨0, by simp, rfl, by simp, fun hnone => by simp at hnone, ?_⟩
    intro a ha
    simp only [Option.some.injEq] at ha
    subst ha
    simpa [dealloc_fold, sized_ids] using hA

/-- If no entry of the evicted prefix has key `k`, lookups of `k` survive. -/
theorem lookup_drop_of_take (c : Cache) (n : Nat) (k : CacheKey)
    (h : ∀ e ∈ c.take n, e.1 ≠ k) :
    Cache.lookup (c.drop n) k = Cache.lookup c k := by
  induction c generalizing n with
  | nil => simp
  | cons e t ih =>
    cases n with
    | zero => simp
    | succ m =>
      have hek : e.1 ≠ k := h e (by simp)
      rw [List.drop_succ_cons]
      rw [ih m fun x hx => h x (by simp [hx])]
      simp [Cache.lookup, hek]

/-! ### Claims -/

/-- C8: `trim` (the end-of-frame maintenance) clears the in-use set and
changes nothing else — the LRU cache contents and order, the packer state,
the atlas side, the maximum texture side and the backing texture are all
unchanged — so afterwards no key is protected from eviction any more. -/
theorem claim_C8 (s : TextureAtlas P) :
    s.trim = { s with in_use := [] } ∧
    s.trim.cache = s.cache ∧ s.trim.packer = s.packer ∧
    s.trim.atlas_side = s.atlas_side ∧
    s.trim.max_texture_side = s.max_texture_side ∧
    s.trim.texture = s.texture ∧ s.trim.default_color = s.default_color ∧
    ∀ k : CacheKey, k ∉ s.trim.in_use := by
  refine ⟨rfl, rfl, rfl, rfl, rfl, rfl, rfl, ?_⟩
  intro k hk
  simp [TextureAtlas.trim] at hk

theorem claim_C8_witness :
    TextureAtlas.trim stW9b = { stW9b with in_use := [] } ∧
    (7 : CacheKey) ∉ (TextureAtlas.trim stW9b).in_use := by
  obtain ⟨h1, -, -, -, -, -, -, h8⟩ := claim_C8 stW9b
  exact ⟨h1, h8 7⟩

/-- C2: an in-use key is never evicted by `alloc_packer`: its cache entry
survives unchanged (first conjunct), and when the least-recently-used entry
is in use, eviction gives up entirely — nothing is evicted, no region is
deallocated, and the call returns `None` so that the cache proceeds to
growth (second conjunct); this covers in particular the case where the
in-use key is the sole entry. -/
theorem claim_C2 (ops : PackerOps P) (inUse : List CacheKey) (w h : Nat)
    (p : P) (c : Cache) :
    (∀ k v, k ∈ inUse → c.lookup k = some v →
      Cache.lookup (alloc_packer_go ops inUse w h p c).2.2 k = some v) ∧
    (∀ k v, ops.allocate p w h = none → c.head? = some (k, v) → k ∈ inUse →
      alloc_packer_go ops inUse w h p c = (none, p, c)) := by
  constructor
  · intro k v hk hlook
    obtain ⟨n, hn, hdrop, htake, hnone, hsome⟩ := alloc_packer_spec ops inUse w h c p
    rw [hdrop]
    rw [lookup_drop_of_take c n k ?keys]
    · exact hlook
    case keys =>
      intro e he hek
      exact htake e he (hek ▸ hk)
  · intro k v hA hhead hk
    match c, hhead with
    | (k, v) :: t, rfl =>
      rw [alloc_packer_go, hA]
      exact evict_cons_inuse ops inUse w h p k v t hk

theorem claim_C2_witness :
    alloc_packer_go failOps [0] 4 4 (3 : CountPacker) [(0, some gs0)] =
      (none, 3, [(0, some gs0)]) ∧
    Cache.lookup (alloc_packer_go failOps [0] 4 4 (3 : CountPacker)
      [(0, some gs0)]).2.2 0 = some (some gs0) := by
  refine ⟨?_, ?_⟩
  · exact (claim_C2 failOps [0] 4 4 3 [(0, some gs0)]).2 0 (some gs0) rfl rfl (by decide)
  · exact (claim_C2 failOps [0] 4 4 3 [(0, some gs0)]).1 0 (some gs0) (by decide) rfl

/-- C3: when allocation fails and eviction is legal, entries are evicted
strictly in least-recently-used-first order: the surviving cache is obtained
by dropping a prefix of the LRU-first list, every dropped key was outside the
in-use set, exactly the dropped `Sized` regions were deallocated (in order;
dropped `Unsized` entries cause no deallocation), a `none` result means the
last allocation attempt still failed and either the structure ran empty or
the next least-recently-used entry is in use (so growth is performed), and a
`some` result is the allocation that succeeded after those deallocations. -/
theorem claim_C3 (ops : PackerOps P) (inUse : List CacheKey) (w h : Nat)
    (p : P) (c : Cache) (res : Option Allocation) (p1 : P) (c1 : Cache)
    (hr : alloc_packer_go ops inUse w h p c = (res, p1, c1)) :
    ∃ n, n ≤ c.length ∧
      c1 = c.drop n ∧
      (∀ e ∈ c.take n, e.1 ∉ inUse) ∧
      (res = none →
        p1 = dealloc_fold ops p (sized_ids (c.take n)) ∧
        ops.allocate p1 w h = none ∧
        (c1 = [] ∨ ∃ k v, c1.head? = some (k, v) ∧ k ∈ inUse)) ∧
      (∀ a, res = some a →
        ops.allocate (dealloc_fold ops p (sized_ids (c.take n))) w h = some (a, p1)) := by
  have hs := alloc_packer_spec ops inUse w h c p
  rw [hr] at hs
  obtain ⟨n, hn, hdrop, htake, hnone, hsome⟩ := hs
  refine ⟨n, hn, hdrop, htake, ?_, hsome⟩
  intro h0
  obtain ⟨h1, h2, h3⟩ := hnone h0
  have hdrop1 : c1 = List.drop n c := hdrop
  refine ⟨h1, h2, ?_⟩
  rw [hdrop1]
  exact h3

theorem claim_C3_witness :
    (alloc_packer_go failOps [] 2 2 (6 : CountPacker) [(1, some gs0)]).2.1 =
      dealloc_fold failOps 6 (sized_ids (List.take 1 [(1, some gs0)])) ∧
    failOps.allocate 6 2 2 = none := by
  have hr : alloc_packer_go failOps [] 2 2 (6 : CountPacker) [(1, some gs0)] =
      (none, 6, []) := rfl
  obtain ⟨n, hn, hdrop, htake, hnone, hsome⟩ :=
    claim_C3 failOps [] 2 2 6 [(1, some gs0)] none 6 [] hr
  have hlen : n ≤ 1 := by simpa using hn
  have hn1 : n = 1 := by
    cases n with
    | zero => simp at hdrop
    | succ m =>
      cases m with
      | zero => rfl
      | succ m2 => omega
  subst hn1
  obtain ⟨h1, h2, h3⟩ := hnone rfl
  rw [hr]
  exact ⟨h1, h2⟩

/-- C9: every resolve that finds a cached entry — `Sized` or `Unsized` —
marks the key in-use (first conjunct), and an in-use `Unsized` entry at the
LRU head blocks eviction just like a `Sized` one: `alloc_packer` returns
`None` unchanged, forcing growth (second conjunct). -/
theorem claim_C9 (ops : PackerOps P) (R : Rasterizer) (k : CacheKey)
    (s : TextureAtlas P) :
    (∀ v, s.cache.lookup k = some v →
      ∃ r s1, TextureAtlas.alloc ops R k s = .ok (r, s1) ∧ k ∈ s1.in_use) ∧
    (∀ (p : P) (t : Cache) (w h : Nat), ops.allocate p w h = none → k ∈ s.in_use →
      alloc_packer_go ops s.in_use w h p ((k, none) :: t) = (none, p, (k, none) :: t)) := by
  constructor
  · intro v hv
    cases v with
    | none =>
      refine ⟨none, hitState s k, ?_, ?_⟩
      · simp only [TextureAtlas.alloc, hv, hitState]
      · exact List.mem_insert_self k s.in_use
    | some g =>
      refine ⟨some (GlyphImage.new s.texture g.allocation.rectangle g.placement
          s.default_color g.colorable), hitState s k, ?_, ?_⟩
      · simp only [TextureAtlas.alloc, hv, hitState]
      · exact List.mem_insert_self k s.in_use
  · intro p t w h hA hk
    rw [alloc_packer_go, hA]
    exact evict_cons_inuse ops s.in_use w h p k none t hk

theorem claim_C9_witness :
    (((TextureAtlas.alloc sops noneR 4 stW9).toOption.map
      (fun rs => decide (4 ∈ rs.2.in_use))).getD false = true) ∧
    alloc_packer_go failOps stW9b.in_use 3 3 (2 : CountPacker) [(4, none)] =
      (none, 2, [(4, none)]) := by
  constructor
  · obtain ⟨r, s1, hok, hmem⟩ := (claim_C9 sops noneR 4 stW9).1 none rfl
    rw [hok]
    simpa [Except.toOption] using hmem
  · exact (claim_C9 failOps noneR 4 stW9b).2 2 [] 3 3 rfl (by decide)

/-! ### Rasterization invariant and growth lemmas -/

theorem RasterInv_mono (R : Rasterizer) (c c1 : Cache)
    (hsub : ∀ e ∈ c1, e ∈ c) (h : RasterInv R c) : RasterInv R c1 :=
  fun k g hm => h k g (hsub (k, some g) hm)

theorem write_glyph_image_eq_none_iff (image : SwashImage) (dc : Color32)
    (f : Nat → Nat → Color32) (x0 y0 : Nat) :
    write_glyph_image image dc f x0 y0 = none ↔
      image.content = SwashContent.subpixelMask := by
  cases h : image.content <;> simp [write_glyph_image, h]

theorem write_glyph_image_isSome (image : SwashImage) (dc : Color32)
    (f : Nat → Nat → Color32) (x0 y0 : Nat)
    (h : image.content ≠ SwashContent.subpixelMask) :
    ∃ f1, write_glyph_image image dc f x0 y0 = some f1 := by
  cases hw : write_glyph_image image dc f x0 y0 with
  | none => exact absurd ((write_glyph_image_eq_none_iff image dc f x0 y0).1 hw) h
  | some f1 => exact ⟨f1, rfl⟩

/-- A list whose `Sized` entries all rasterize to non-subpixel bitmaps never
makes the growth copy loop abort. -/
theorem grow_image_ok (R : Rasterizer) (dc : Color32) :
    ∀ (l : List (CacheKey × Option GlyphState)),
      (∀ k g, (k, some g) ∈ l →
        ∃ img, R k = some img ∧ img.content ≠ SwashContent.subpixelMask) →
      ∀ f, ∃ F, grow_image R dc l f = .ok F := by
  intro l
  induction l with
  | nil => exact fun _ f => ⟨f, rfl⟩
  | cons e t ih =>
    intro hinv f
    obtain ⟨k, v⟩ := e
    cases v with
    | none =>
      simpa [grow_image] using ih (fun k1 g1 hm => hinv k1 g1 (by simp [hm])) f
    | some g =>
      obtain ⟨img, hR, hc⟩ := hinv k g (by simp)
      obtain ⟨f1, hw⟩ := write_glyph_image_isSome img dc f
        g.allocation.rectangle.min.x.toNat g.allocation.rectangle.min.y.toNat hc
      obtain ⟨F, hF⟩ := ih (fun k1 g1 hm => hinv k1 g1 (by simp [hm])) f1
      exact ⟨F, by simp [grow_image, hR, hw, hF]⟩

/-- The growth copy loop never fails the atlas-side assertion. -/
theorem grow_image_ne_assert (R : Rasterizer) (dc : Color32) :
    ∀ (l : List (CacheKey × Option GlyphState)) (f : Nat → Nat → Color32),
      grow_image R dc l f ≠ .error AbortKind.assertFailed := by
  intro l
  induction l with
  | nil => intro f h; simp [grow_image] at h
  | cons e t ih =>
    intro f h
    obtain ⟨k, v⟩ := e
    cases v with
    | none => exact ih f (by simpa [grow_image] using h)
    | some g =>
      cases hR : R k with
      | none => simp [grow_image, hR] at h
      | some img =>
        cases hw : write_glyph_image img dc f
            g.allocation.rectangle.min.x.toNat g.allocation.rectangle.min.y.toNat with
        | none => simp [grow_image, hR, hw] at h
        | some f1 =>
          simp only [grow_image, hR, hw] at h
          exact ih f1 h

/-- If some `Sized` entry of the list rasterizes to a subpixel-mask bitmap,
the growth copy loop aborts. -/
theorem grow_image_not_ok_of_subpixel (R : Rasterizer) (dc : Color32) :
    ∀ (l : List (CacheKey × Option GlyphState)) (k : CacheKey) (g : GlyphState)
      (img : SwashImage), (k, some g) ∈ l → R k = some img →
      img.content = SwashContent.subpixelMask →
      ∀ f F, grow_image R dc l f ≠ .ok F := by
  intro l
  induction l with
  | nil => intro k g img hm; simp at hm
  | cons e t ih =>
    intro k g img hm hR hc f F hok
    obtain ⟨k1, v1⟩ := e
    rcases List.mem_cons.1 hm with he | ht
    · cases he
      simp [grow_image, hR,
        (write_glyph_image_eq_none_iff img dc f g.allocation.rectangle.min.x.toNat
          g.allocation.rectangle.min.y.toNat).2 hc] at hok
    · cases v1 with
      | none =>
        simp only [grow_image] at hok
        exact ih k g img ht hR hc f F hok
      | some g1 =>
        cases hR1 : R k1 with
        | none => simp [grow_image, hR1] at hok
        | some img1 =>
          cases hw : write_glyph_image img1 dc f
              g1.allocation.rectangle.min.x.toNat g1.allocation.rectangle.min.y.toNat with
          | none => simp [grow_image, hR1, hw] at hok
          | some f1 =>
            simp only [grow_image, hR1, hw] at hok
            exact ih k g img ht hR hc f1 F hok

/-- Inversion for a successful `grow`: the precondition held, the side
doubled (capped), the packer bookkeeping grew, and the cache, in-use set,
maximum side and default color are untouched. -/
theorem grow_ok_inversion (ops : PackerOps P) (R : Rasterizer) (s s1 : TextureAtlas P)
    (h : TextureAtlas.grow ops R s = .ok s1) :
    s.atlas_side < s.max_texture_side ∧
    s1.atlas_side = min (s.atlas_side * 2) s.max_texture_side ∧
    s1.packer = ops.grow s.packer (min (s.atlas_side * 2) s.max_texture_side) ∧
    s1.cache = s.cache ∧ s1.in_use = s.in_use ∧
    s1.max_texture_side = s.max_texture_side ∧
    s1.default_color = s.default_color ∧ s1.ctx = s.ctx + 1 ∧
    s1.texture.id = s.ctx ∧
    s1.texture.image.width = min (s.atlas_side * 2) s.max_texture_side ∧
    s1.texture.image.height = min (s.atlas_side * 2) s.max_texture_side ∧
    grow_image R s.default_color s.cache.reverse (fun _ _ => Color32.TRANSPARENT) =
      .ok s1.texture.image.pix := by
  rw [TextureAtlas.grow] at h
  by_cases hlt : s.atlas_side < s.max_texture_side
  · rw [if_pos hlt] at h
    cases hg : grow_image R s.default_color s.cache.reverse (fun _ _ => Color32.TRANSPARENT) with
    | error e => rw [hg] at h; simp at h
    | ok f =>
      rw [hg] at h
      simp only [Except.ok.injEq] at h
      subst h
      exact ⟨hlt, rfl, rfl, rfl, rfl, rfl, rfl, rfl, rfl, rfl, rfl, rfl⟩
  · rw [if_neg hlt] at h
    simp at h

/-- A successful `grow` exists whenever the side is below the maximum and the
cached `Sized` entries rasterize deterministically. -/
theorem grow_ok_of_inv (ops : PackerOps P) (R : Rasterizer) (s : TextureAtlas P)
    (hinv : RasterInv R s.cache) (hlt : s.atlas_side < s.max_texture_side) :
    ∃ s1, TextureAtlas.grow ops R s = .ok s1 := by
  obtain ⟨F, hF⟩ := grow_image_ok R s.default_color s.cache.reverse
    (fun k g hm => hinv k g (List.mem_reverse.1 hm)) (fun _ _ => Color32.TRANSPARENT)
  cases hg : TextureAtlas.grow ops R s with
  | ok s1 => exact ⟨s1, rfl⟩
  | error e =>
    rw [TextureAtlas.grow] at hg
    rw [if_pos hlt] at hg
    rw [hF] at hg
    simp at hg

/-! ### Cache membership lemmas -/

theorem mem_eraseKey (c : Cache) (k : CacheKey) (e : CacheKey × Option GlyphState)
    (h : e ∈ c.eraseKey k) : e ∈ c := by
  induction c with
  | nil => simp [Cache.eraseKey] at h
  | cons a t ih =>
    rw [Cache.eraseKey] at h
    by_cases ha : a.1 = k
    · rw [if_pos ha] at h
      exact List.mem_cons_of_mem a (ih h)
    · rw [if_neg ha] at h
      rcases List.mem_cons.1 h with h1 | h1
      · exact List.mem_cons.2 (Or.inl h1)
      · exact List.mem_cons_of_mem a (ih h1)

theorem lookup_mem : ∀ (c : Cache) (k : CacheKey) (v : Option GlyphState),
    c.lookup k = some v → (k, v) ∈ c := by
  intro c
  induction c with
  | nil => intro k v h; simp [Cache.lookup] at h
  | cons a t ih =>
    intro k v h
    obtain ⟨a1, a2⟩ := a
    rw [Cache.lookup] at h
    by_cases ha : a1 = k
    · rw [if_pos ha] at h
      simp only [Option.some.injEq] at h
      subst ha
      subst h
      exact List.mem_cons_self _ _
    · rw [if_neg ha] at h
      exact List.mem_cons_of_mem _ (ih k v h)

theorem mem_promote (c : Cache) (k : CacheKey) (e : CacheKey × Option GlyphState)
    (h : e ∈ c.promote k) : e ∈ c := by
  rw [Cache.promote] at h
  cases hl : c.lookup k with
  | none => rw [hl] at h; exact h
  | some v =>
    rw [hl] at h
    rcases List.mem_append.1 h with h1 | h1
    · exact mem_eraseKey c k e h1
    · have he : e = (k, v) := by simpa using h1
      rw [he]
      exact lookup_mem c k v hl

theorem mem_put (c : Cache) (k : CacheKey) (v : Option GlyphState)
    (e : CacheKey × Option GlyphState) (h : e ∈ c.put k v) : e ∈ c ∨ e = (k, v) := by
  rw [Cache.put] at h
  rcases List.mem_append.1 h with h1 | h1
  · exact Or.inl (mem_eraseKey c k e h1)
  · exact Or.inr (by simpa using h1)

theorem lookup_put_self (c : Cache) (k : CacheKey) (v : Option GlyphState) :
    Cache.lookup (c.put k v) k = some v := by
  induction c with
  | nil => simp [Cache.put, Cache.eraseKey, Cache.lookup]
  | cons a t ih =>
    rw [Cache.put, Cache.eraseKey]
    by_cases ha : a.1 = k
    · rw [if_pos ha]
      exact ih
    · rw [if_neg ha]
      rw [List.cons_append]
      rw [Cache.lookup, if_neg ha]
      exact ih

/-! ### Atlas side invariant and `alloc_loop` state lemmas -/

theorem grow_side (ops : PackerOps P) (R : Rasterizer) (s s1 : TextureAtlas P)
    (h : TextureAtlas.grow ops R s = .ok s1) (hs : SideInv s) :
    SideInv s1 ∧ s.atlas_side < s1.atlas_side ∧
      s1.max_texture_side = s.max_texture_side := by
  obtain ⟨hlt, hside, -, -, -, hmax, -⟩ := grow_ok_inversion ops R s s1 h
  obtain ⟨h1, -⟩ := hs
  refine ⟨⟨?_, ?_⟩, ?_, hmax⟩
  · rw [hside]; omega
  · rw [hside, hmax]; omega
  · rw [hside]; omega

theorem alloc_finish_inversion (k : CacheKey) (image : SwashImage) (x : Allocation)
    (s1 : TextureAtlas P) (r : Option GlyphImage) (s3 : TextureAtlas P)
    (h : alloc_finish k image x s1 = .ok (r, s3)) :
    image.content ≠ SwashContent.subpixelMask ∧
    s3.cache = s1.cache.put k
      (some ⟨x, image.placement, decide (image.content = SwashContent.mask)⟩) ∧
    s3.in_use = s1.in_use.insert k ∧
    s3.atlas_side = s1.atlas_side ∧
    s3.max_texture_side = s1.max_texture_side ∧
    s3.packer = s1.packer := by
  simp only [alloc_finish] at h
  cases hw : write_glyph_image image s1.default_color (fun _ _ => Color32.TRANSPARENT) 0 0 with
  | none => rw [hw] at h; simp at h
  | some pixfn =>
    rw [hw] at h
    simp only [Except.ok.injEq, Prod.mk.injEq] at h
    obtain ⟨-, h3⟩ := h
    subst h3
    refine ⟨?_, rfl, rfl, rfl, rfl, rfl⟩
    intro hc
    rw [(write_glyph_image_eq_none_iff image s1.default_color
      (fun _ _ => Color32.TRANSPARENT) 0 0).2 hc] at hw
    simp at hw

theorem alloc_loop_succ_none (ops : PackerOps P) (R : Rasterizer) (k : CacheKey)
    (image : SwashImage) (fuel : Nat) (s : TextureAtlas P) (p1 : P) (c1 : Cache)
    (hgo : alloc_packer_go ops s.in_use image.placement.width
      image.placement.height s.packer s.cache = (none, p1, c1)) :
    TextureAtlas.alloc_loop ops R k image (fuel + 1) s =
      match TextureAtlas.grow ops R { s with packer := p1, cache := c1 } with
      | .error e => .error e
      | .ok s2 => TextureAtlas.alloc_loop ops R k image fuel s2 := by
  rw [TextureAtlas.alloc_loop]
  simp [TextureAtlas.alloc_packer, hgo]

theorem alloc_loop_succ_some (ops : PackerOps P) (R : Rasterizer) (k : CacheKey)
    (image : SwashImage) (fuel : Nat) (s : TextureAtlas P) (x : Allocation)
    (p1 : P) (c1 : Cache)
    (hgo : alloc_packer_go ops s.in_use image.placement.width
      image.placement.height s.packer s.cache = (some x, p1, c1)) :
    TextureAtlas.alloc_loop ops R k image (fuel + 1) s =
      alloc_finish k image x { s with packer := p1, cache := c1 } := by
  rw [TextureAtlas.alloc_loop]
  simp [TextureAtlas.alloc_packer, hgo]

theorem alloc_loop_state (ops : PackerOps P) (R : Rasterizer) (k : CacheKey)
    (image : SwashImage) (hR : R k = some image) :
    ∀ (fuel : Nat) (s : TextureAtlas P) (r : Option GlyphImage) (s1 : TextureAtlas P),
      TextureAtlas.alloc_loop ops R k image fuel s = .ok (r, s1) →
      (RasterInv R s.cache → RasterInv R s1.cache) ∧
      (SideInv s → SideInv s1 ∧ s.atlas_side ≤ s1.atlas_side) ∧
      s1.max_texture_side = s.max_texture_side := by
  intro fuel
  induction fuel with
  | zero =>
    intro s r s1 h
    rw [TextureAtlas.alloc_loop] at h
    simp at h
  | succ fuel ih =>
    intro s r s1 h
    rcases hgo : alloc_packer_go ops s.in_use image.placement.width
      image.placement.height s.packer s.cache with ⟨r1, p1, c1⟩
    have hsub : ∀ e ∈ c1, e ∈ s.cache := by
      obtain ⟨n, -, hdrop, -, -, -⟩ := alloc_packer_spec ops s.in_use
        image.placement.width image.placement.height s.cache s.packer
      rw [hgo] at hdrop
      have hdrop1 : c1 = List.drop n s.cache := hdrop
      intro e he
      rw [hdrop1] at he
      exact List.drop_subset n s.cache he
    cases r1 with
    | none =>
      rw [alloc_loop_succ_none ops R k image fuel s p1 c1 hgo] at h
      cases hgr : TextureAtlas.grow ops R { s with packer := p1, cache := c1 } with
      | error e => rw [hgr] at h; simp at h
      | ok s2 =>
        rw [hgr] at h
        simp only [] at h
        obtain ⟨hinv2, hside2, hmax2⟩ := ih s2 r s1 h
        obtain ⟨hlt2, hsd2, -, hc2, -, hm2, -⟩ := grow_ok_inversion ops R _ s2 hgr
        refine ⟨?_, ?_, ?_⟩
        · intro hinv
          apply hinv2
          rw [hc2]
          exact RasterInv_mono R s.cache c1 hsub hinv
        · intro hs
          have hmid : SideInv { s with packer := p1, cache := c1 } := hs
          obtain ⟨hs2, hlt1, -⟩ := grow_side ops R _ s2 hgr hmid
          obtain ⟨hs1, hle1⟩ := hside2 hs2
          exact ⟨hs1, le_trans (le_of_lt hlt1) hle1⟩
        · rw [hmax2, hm2]
    | some x =>
      rw [alloc_loop_succ_some ops R k image fuel s x p1 c1 hgo] at h
      obtain ⟨hcont, hc3, hu3, hside3, hmax3, -⟩ :=
        alloc_finish_inversion k image x _ r s1 h
      refine ⟨?_, ?_, ?_⟩
      · intro hinv k2 g2 hm2
        rw [hc3] at hm2
        rcases mem_put _ k _ _ hm2 with h1 | h1
        · exact RasterInv_mono R s.cache c1 hsub hinv k2 g2 h1
        · simp only [Prod.mk.injEq, Option.some.injEq] at h1
          obtain ⟨hk2, -⟩ := h1
          subst hk2
          exact ⟨image, hR, hcont⟩
      · intro hs
        refine ⟨⟨?_, ?_⟩, ?_⟩
        · rw [hside3]; exact hs.1
        · rw [hside3, hmax3]; exact hs.2
        · rw [hside3]
      · rw [hmax3]

/-- C6: growth at the device maximum is exactly the assertion failure: `grow`
aborts with the failed assertion if and only if `atlas_side` is not strictly
below `max_texture_side` at entry; when it is strictly below (and the cached
`Sized` entries rasterize deterministically, which holds for every reachable
cache), `grow` completes without aborting. -/
theorem claim_C6 (ops : PackerOps P) (R : Rasterizer) (s : TextureAtlas P) :
    (TextureAtlas.grow ops R s = .error AbortKind.assertFailed ↔
      ¬ s.atlas_side < s.max_texture_side) ∧
    (RasterInv R s.cache → s.atlas_side < s.max_texture_side →
      ∃ s1, TextureAtlas.grow ops R s = .ok s1) := by
  constructor
  · constructor
    · intro h hlt
      rw [TextureAtlas.grow, if_pos hlt] at h
      cases hg : grow_image R s.default_color s.cache.reverse
          (fun _ _ => Color32.TRANSPARENT) with
      | error e =>
        rw [hg] at h
        simp only [Except.error.injEq] at h
        exact grow_image_ne_assert R s.default_color s.cache.reverse
          (fun _ _ => Color32.TRANSPARENT) (h ▸ hg)
      | ok f => rw [hg] at h; simp at h
    · intro hge
      rw [TextureAtlas.grow, if_neg hge]
  · exact grow_ok_of_inv ops R s

theorem claim_C6_witness :
    TextureAtlas.grow sops maskR { st0 with atlas_side := 1024 } =
      .error AbortKind.assertFailed ∧
    (TextureAtlas.grow sops maskR st0).isOk = true := by
  constructor
  · exact (claim_C6 sops maskR { st0 with atlas_side := 1024 }).1.mpr (by decide)
  · obtain ⟨s1, hs1⟩ := (claim_C6 sops maskR st0).2
      (fun k g hm => absurd hm (List.not_mem_nil _)) (by decide)
    rw [hs1]
    rfl

/-- C4: a rasterization miss is invisible to callers: on a cache miss where
the rasterizer produces nothing, `alloc` returns `None` with the state
completely unchanged, so no entry is cached and a later call retries (first
conjunct); during growth, re-rasterization never misses for a reachable
cache, because the deterministic rasterizer succeeded when each `Sized`
entry was created (second conjunct); and resolve preserves that
reachability invariant (third conjunct). -/
theorem claim_C4 (ops : PackerOps P) (R : Rasterizer) (k : CacheKey)
    (s : TextureAtlas P) :
    (s.cache.lookup k = none → R k = none →
      TextureAtlas.alloc ops R k s = .ok (none, s)) ∧
    (RasterInv R s.cache → TextureAtlas.grow ops R s ≠ .error AbortKind.rasterMissed) ∧
    (RasterInv R s.cache → ∀ r s1, TextureAtlas.alloc ops R k s = .ok (r, s1) →
      RasterInv R s1.cache) := by
  refine ⟨?_, ?_, ?_⟩
  · intro h1 h2
    simp only [TextureAtlas.alloc, h1, h2]
  · intro hinv
    by_cases hlt : s.atlas_side < s.max_texture_side
    · obtain ⟨s1, hs1⟩ := grow_ok_of_inv ops R s hinv hlt
      rw [hs1]
      simp
    · rw [TextureAtlas.grow, if_neg hlt]
      simp
  · intro hinv r s1 h
    cases hl : s.cache.lookup k with
    | none =>
      cases hRk : R k with
      | none =>
        simp only [TextureAtlas.alloc, hl, hRk, Except.ok.injEq, Prod.mk.injEq] at h
        obtain ⟨-, h2⟩ := h
        subst h2
        exact hinv
      | some image =>
        by_cases hz : image.placement.width = 0 ∨ image.placement.height = 0
        · simp only [TextureAtlas.alloc, hl, hRk, if_pos hz, Except.ok.injEq,
            Prod.mk.injEq] at h
          obtain ⟨-, h2⟩ := h
          subst h2
          intro k2 g2 hm2
          rcases mem_put _ k _ _ hm2 with hm3 | hm3
          · exact hinv k2 g2 hm3
          · simp at hm3
        · simp only [TextureAtlas.alloc, hl, hRk, if_neg hz] at h
          exact (alloc_loop_state ops R k image hRk (s.max_texture_side + 1)
            s r s1 h).1 hinv
    | some v =>
      have hmem : ∀ e ∈ ((s.cache.promote k).promote k), e ∈ s.cache := fun e he =>
        mem_promote s.cache k e (mem_promote (s.cache.promote k) k e he)
      cases v with
      | none =>
        simp only [TextureAtlas.alloc, hl, Except.ok.injEq, Prod.mk.injEq] at h
        obtain ⟨-, h2⟩ := h
        subst h2
        exact RasterInv_mono R s.cache _ hmem hinv
      | some g =>
        simp only [TextureAtlas.alloc, hl, Except.ok.injEq, Prod.mk.injEq] at h
        obtain ⟨-, h2⟩ := h
        subst h2
        exact RasterInv_mono R s.cache _ hmem hinv

/-- Unfolding of `grow` when the side is strictly below the maximum. -/
theorem grow_unfold_lt (ops : PackerOps P) (R : Rasterizer) (s : TextureAtlas P)
    (hlt : s.atlas_side < s.max_texture_side) :
    TextureAtlas.grow ops R s =
      match grow_image R s.default_color s.cache.reverse (fun _ _ => Color32.TRANSPARENT) with
      | .error e => .error e
      | .ok f =>
        .ok { s with
              atlas_side := min (s.atlas_side * 2) s.max_texture_side
              packer := ops.grow s.packer (min (s.atlas_side * 2) s.max_texture_side)
              texture := ⟨s.ctx, ⟨min (s.atlas_side * 2) s.max_texture_side,
                min (s.atlas_side * 2) s.max_texture_side, f⟩⟩
              ctx := s.ctx + 1 } := by
  rw [TextureAtlas.grow, if_pos hlt]

theorem claim_C4_witness :
    TextureAtlas.alloc sops noneR 5 st0 = .ok (none, st0) ∧
    TextureAtlas.grow sops noneR st0 ≠ .error AbortKind.rasterMissed := by
  constructor
  · exact (claim_C4 sops noneR 5 st0).1 rfl rfl
  · exact (claim_C4 sops noneR 5 st0).2.1 (fun k g hm => absurd hm (List.not_mem_nil _))

/-- C7: negative caching of zero-footprint glyphs: the first resolve of a key
whose bitmap has zero width or height caches an `Unsized` entry, marks the
key in-use and returns `None` (first conjunct); the entry is found by a later
lookup of the key (second conjunct); and a resolve that hits an `Unsized`
entry returns `None` after promoting and marking in-use, without invoking the
rasterizer — the result is the same for every rasterizer (third conjunct). -/
theorem claim_C7 (ops : PackerOps P) (R : Rasterizer) (k : CacheKey)
    (s : TextureAtlas P) (image : SwashImage) :
    (s.cache.lookup k = none → R k = some image →
      image.placement.width = 0 ∨ image.placement.height = 0 →
      TextureAtlas.alloc ops R k s =
        .ok (none, { s with cache := s.cache.put k none, in_use := s.in_use.insert k })) ∧
    (Cache.lookup (s.cache.put k none) k = some none) ∧
    (s.cache.lookup k = some none → ∀ R1 : Rasterizer,
      TextureAtlas.alloc ops R1 k s = .ok (none, hitState s k)) := by
  refine ⟨?_, lookup_put_self s.cache k none, ?_⟩
  · intro h1 h2 h3
    simp only [TextureAtlas.alloc, h1, h2, if_pos h3]
  · intro hv R1
    simp only [TextureAtlas.alloc, hv, hitState]

theorem claim_C7_witness :
    TextureAtlas.alloc sops zeroR 2 st0 =
      .ok (none, { st0 with cache := st0.cache.put 2 none, in_use := st0.in_use.insert 2 }) ∧
    TextureAtlas.alloc sops maskR 4 stW9 = .ok (none, hitState stW9 4) := by
  constructor
  · exact (claim_C7 sops zeroR 2 st0 emptyImg).1 rfl rfl (Or.inr rfl)
  · exact (claim_C7 sops maskR 4 stW9 maskImg).2.2 rfl maskR

/-- The resolve loop never completes when the bitmap is a subpixel mask. -/
theorem alloc_loop_subpixel (ops : PackerOps P) (R : Rasterizer) (k : CacheKey)
    (image : SwashImage) (hc : image.content = SwashContent.subpixelMask) :
    ∀ (fuel : Nat) (s : TextureAtlas P),
      (TextureAtlas.alloc_loop ops R k image fuel s).isOk = false := by
  intro fuel
  induction fuel with
  | zero =>
    intro s
    rw [TextureAtlas.alloc_loop]
    rfl
  | succ fuel ih =>
    intro s
    rcases hgo : alloc_packer_go ops s.in_use image.placement.width
      image.placement.height s.packer s.cache with ⟨r1, p1, c1⟩
    cases r1 with
    | none =>
      rw [alloc_loop_succ_none ops R k image fuel s p1 c1 hgo]
      cases hgr : TextureAtlas.grow ops R { s with packer := p1, cache := c1 } with
      | error e => rfl
      | ok s2 => exact ih s2
    | some x =>
      rw [alloc_loop_succ_some ops R k image fuel s x p1 c1 hgo]
      simp [alloc_finish, write_glyph_image, hc, Except.isOk, Except.toBool]

/-- C10: subpixel-mask bitmaps abort the cache: `write_glyph_image` fails
exactly on `SubpixelMask` content (first conjunct); a resolve whose missed
key rasterizes to a nonempty subpixel-mask bitmap never completes normally
(second conjunct); and growth never completes when the re-rasterization of
some cached `Sized` entry yields a subpixel-mask bitmap (third conjunct):
the cache only completes resolve or growth for single-channel masks and
pre-colored bitmaps. -/
theorem claim_C10 :
    (∀ (image : SwashImage) (dc : Color32) (f : Nat → Nat → Color32) (x0 y0 : Nat),
      write_glyph_image image dc f x0 y0 = none ↔
        image.content = SwashContent.subpixelMask) ∧
    (∀ (Q : Type) (ops : PackerOps Q) (R : Rasterizer) (k : CacheKey)
      (s : TextureAtlas Q) (image : SwashImage),
      s.cache.lookup k = none → R k = some image →
      image.content = SwashContent.subpixelMask →
      ¬ (image.placement.width = 0 ∨ image.placement.height = 0) →
      (TextureAtlas.alloc ops R k s).isOk = false) ∧
    (∀ (Q : Type) (ops : PackerOps Q) (R : Rasterizer) (s : TextureAtlas Q)
      (k : CacheKey) (g : GlyphState) (image : SwashImage),
      (k, some g) ∈ s.cache → R k = some image →
      image.content = SwashContent.subpixelMask →
      (TextureAtlas.grow ops R s).isOk = false) := by
  refine ⟨write_glyph_image_eq_none_iff, ?_, ?_⟩
  · intro Q ops R k s image hl hRk hc hz
    simp only [TextureAtlas.alloc, hl, hRk, if_neg hz]
    exact alloc_loop_subpixel ops R k image hc (s.max_texture_side + 1) s
  · intro Q ops R s k g image hm hRk hc
    by_cases hlt : s.atlas_side < s.max_texture_side
    · rw [grow_unfold_lt ops R s hlt]
      cases hg : grow_image R s.default_color s.cache.reverse
          (fun _ _ => Color32.TRANSPARENT) with
      | error e => rfl
      | ok F =>
        exact absurd hg (grow_image_not_ok_of_subpixel R s.default_color
          s.cache.reverse k g image (List.mem_reverse.2 hm) hRk hc
          (fun _ _ => Color32.TRANSPARENT) F)
    · rw [TextureAtlas.grow, if_neg hlt]
      rfl

theorem claim_C10_witness :
    write_glyph_image subpixelImg dcol (fun _ _ => Color32.TRANSPARENT) 0 0 = none ∧
    (TextureAtlas.alloc sops subR 9 st0).isOk = false ∧
    (TextureAtlas.grow sops subR { st0 with cache := [(3, some gs0)] }).isOk = false := by
  refine ⟨?_, ?_, ?_⟩
  · exact (claim_C10.1 subpixelImg dcol (fun _ _ => Color32.TRANSPARENT) 0 0).mpr rfl
  · exact claim_C10.2.1 CountPacker sops subR 9 st0 subpixelImg rfl rfl rfl (by decide)
  · exact claim_C10.2.2 CountPacker sops subR { st0 with cache := [(3, some gs0)] }
      3 gs0 subpixelImg (by decide) rfl rfl

theorem runSeq_cons_ok (ops : PackerOps P) (R : Rasterizer) (op : AtlasOp)
    (rest : List AtlasOp) (s s2 : TextureAtlas P)
    (hst : stepOp ops R s op = .ok s2) :
    runSeq ops R (op :: rest) s = runSeq ops R rest s2 := by
  rw [runSeq, hst]

theorem alloc_side (ops : PackerOps P) (R : Rasterizer) (k : CacheKey)
    (s : TextureAtlas P) (r : Option GlyphImage) (s1 : TextureAtlas P)
    (h : TextureAtlas.alloc ops R k s = .ok (r, s1)) (hs : SideInv s) :
    SideInv s1 ∧ s.atlas_side ≤ s1.atlas_side ∧
      s1.max_texture_side = s.max_texture_side := by
  cases hl : s.cache.lookup k with
  | none =>
    cases hRk : R k with
    | none =>
      simp only [TextureAtlas.alloc, hl, hRk, Except.ok.injEq, Prod.mk.injEq] at h
      obtain ⟨-, h2⟩ := h
      subst h2
      exact ⟨hs, le_refl _, rfl⟩
    | some image =>
      by_cases hz : image.placement.width = 0 ∨ image.placement.height = 0
      · simp only [TextureAtlas.alloc, hl, hRk, if_pos hz, Except.ok.injEq,
          Prod.mk.injEq] at h
        obtain ⟨-, h2⟩ := h
        subst h2
        exact ⟨hs, le_refl _, rfl⟩
      · simp only [TextureAtlas.alloc, hl, hRk, if_neg hz] at h
        obtain ⟨-, h2, h3⟩ := alloc_loop_state ops R k image hRk
          (s.max_texture_side + 1) s r s1 h
        obtain ⟨hs1, hle⟩ := h2 hs
        exact ⟨hs1, hle, h3⟩
  | some v =>
    cases v with
    | none =>
      simp only [TextureAtlas.alloc, hl, Except.ok.injEq, Prod.mk.injEq] at h
      obtain ⟨-, h2⟩ := h
      subst h2
      exact ⟨hs, le_refl _, rfl⟩
    | some g =>
      simp only [TextureAtlas.alloc, hl, Except.ok.injEq, Prod.mk.injEq] at h
      obtain ⟨-, h2⟩ := h
      subst h2
      exact ⟨hs, le_refl _, rfl⟩

theorem stepOp_side (ops : PackerOps P) (R : Rasterizer) (op : AtlasOp)
    (s s1 : TextureAtlas P) (h : stepOp ops R s op = .ok s1) (hs : SideInv s) :
    SideInv s1 ∧ s.atlas_side ≤ s1.atlas_side ∧
      s1.max_texture_side = s.max_texture_side := by
  cases op with
  | opTrim =>
    rw [stepOp] at h
    simp only [Except.ok.injEq] at h
    subst h
    exact ⟨hs, le_refl _, rfl⟩
  | opAlloc k =>
    rw [stepOp] at h
    cases ha : TextureAtlas.alloc ops R k s with
    | error e => rw [ha] at h; simp [Except.map] at h
    | ok rs =>
      obtain ⟨r, s2⟩ := rs
      rw [ha] at h
      simp only [Except.map, Except.ok.injEq] at h
      subst h
      exact alloc_side ops R k s r s2 ha hs

theorem runSeq_side (ops : PackerOps P) (R : Rasterizer) :
    ∀ (l : List AtlasOp) (s s1 : TextureAtlas P), SideInv s →
      runSeq ops R l s = .ok s1 →
      SideInv s1 ∧ s.atlas_side ≤ s1.atlas_side ∧
        s1.max_texture_side = s.max_texture_side := by
  intro l
  induction l with
  | nil =>
    intro s s1 hs h
    rw [runSeq] at h
    simp only [Except.ok.injEq] at h
    subst h
    exact ⟨hs, le_refl _, rfl⟩
  | cons op rest ih =>
    intro s s1 hs h
    cases hst : stepOp ops R s op with
    | error e => rw [runSeq, hst] at h; simp at h
    | ok s2 =>
      rw [runSeq_cons_ok ops R op rest s s2 hst] at h
      obtain ⟨hs2, hle2, hm2⟩ := stepOp_side ops R op s s2 hst hs
      obtain ⟨hs1, hle1, hm1⟩ := ih s2 s1 hs2 h
      exact ⟨hs1, le_trans hle2 hle1, by rw [hm1, hm2]⟩

/-- C5 is false as stated: constructing the atlas on a device whose maximum
texture side is 128 yields `atlas_side = 256 > 128 = max_texture_side` — the
atlas side exceeds the device maximum before any operation runs, because
`TextureAtlas::new` hardcodes the initial side 256 without clamping it. -/
theorem claim_C5_counterexample :
    (TextureAtlas.new sops 128 dcol).max_texture_side <
      (TextureAtlas.new sops 128 dcol).atlas_side := by
  decide

/-- C5 (amended): each `grow` requires `atlas_side < max_texture_side` and
sets the side to `min (2 * atlas_side) max_texture_side`, strictly increasing
it (the side is positive in every reachable state) and keeping it at most the
maximum (first conjunct); every sequence of `alloc`/`trim` operations keeps
the side positive, nondecreasing and within the unchanged maximum (second
conjunct); `new` establishes `1 ≤ side ≤ max` provided the device maximum is
at least the hardcoded initial side 256 (third conjunct) — not in general,
see the counterexample; and `update_max_texture_side` changes only the
maximum, preserving the invariant provided the re-read maximum is not below
the current side (fourth conjunct). -/
theorem claim_C5_amended (ops : PackerOps P) (R : Rasterizer) :
    (∀ s s1 : TextureAtlas P, TextureAtlas.grow ops R s = .ok s1 →
      s.atlas_side < s.max_texture_side ∧
      s1.atlas_side = min (s.atlas_side * 2) s.max_texture_side ∧
      s1.max_texture_side = s.max_texture_side ∧
      (1 ≤ s.atlas_side → s.atlas_side < s1.atlas_side) ∧
      s1.atlas_side ≤ s.max_texture_side) ∧
    (∀ (l : List AtlasOp) (s s1 : TextureAtlas P), SideInv s →
      runSeq ops R l s = .ok s1 →
      SideInv s1 ∧ s.atlas_side ≤ s1.atlas_side ∧
        s1.max_texture_side = s.max_texture_side) ∧
    (∀ (m : Nat) (dc : Color32), 256 ≤ m → SideInv (TextureAtlas.new ops m dc)) ∧
    (∀ (s : TextureAtlas P) (m : Nat),
      (s.update_max_texture_side m).atlas_side = s.atlas_side ∧
      (s.update_max_texture_side m).cache = s.cache ∧
      (SideInv s → s.atlas_side ≤ m → SideInv (s.update_max_texture_side m))) := by
  refine ⟨?_, runSeq_side ops R, ?_, ?_⟩
  · intro s s1 h
    obtain ⟨hlt, hside, -, -, -, hmax, -⟩ := grow_ok_inversion ops R s s1 h
    refine ⟨hlt, hside, hmax, ?_, ?_⟩
    · intro h1; rw [hside]; omega
    · rw [hside]; omega
  · intro m dc hm
    exact ⟨(by norm_num : (1 : Nat) ≤ 256), hm⟩
  · intro s m
    refine ⟨rfl, rfl, ?_⟩
    intro hs hm
    exact ⟨hs.1, hm⟩

theorem claim_C5_amended_witness :
    (TextureAtlas.grow sops maskR st0).map (fun s => s.atlas_side) = .ok 512 ∧
    ((runSeq sops maskR [AtlasOp.opTrim, AtlasOp.opAlloc 3] st0).map
      (fun s => s.max_texture_side)) = .ok 1024 ∧
    SideInv (TextureAtlas.new sops 1024 dcol) := by
  refine ⟨?_, ?_, ?_⟩
  · cases hg : TextureAtlas.grow sops maskR st0 with
    | error e =>
      have hok : (TextureAtlas.grow sops maskR st0).isOk = true := rfl
      rw [hg] at hok
      simp [Except.isOk, Except.toBool] at hok
    | ok s1 =>
      obtain ⟨-, h2, -, -, -⟩ := (claim_C5_amended sops maskR).1 st0 s1 hg
      simp only [Except.map]
      rw [h2]
      rfl
  · cases hr : runSeq sops maskR [AtlasOp.opTrim, AtlasOp.opAlloc 3] st0 with
    | error e =>
      have hok : (runSeq sops maskR [AtlasOp.opTrim, AtlasOp.opAlloc 3] st0).isOk
          = true := rfl
      rw [hr] at hok
      simp [Except.isOk, Except.toBool] at hok
    | ok s1 =>
      obtain ⟨-, -, hm⟩ := (claim_C5_amended sops maskR).2.1
        [AtlasOp.opTrim, AtlasOp.opAlloc 3] st0 s1 ⟨by decide, by decide⟩ hr
      simp only [Except.map]
      rw [hm]
      rfl
  · exact (claim_C5_amended sops maskR).2.2.1 1024 dcol (by norm_num)

theorem EntryDisj_symm (R : Rasterizer) (e e1 : CacheKey × Option GlyphState)
    (h : EntryDisj R e e1) : EntryDisj R e1 e :=
  fun b1 b hb1 hb x y hin1 hin => h b b1 hb hb1 x y hin hin1

/-- `write_glyph_image` changes no pixel outside the bitmap's box. -/
theorem write_outside (image : SwashImage) (dc : Color32) (f : Nat → Nat → Color32)
    (x0 y0 : Nat) (f1 : Nat → Nat → Color32)
    (hw : write_glyph_image image dc f x0 y0 = some f1) (x y : Nat)
    (hout : ¬ inBox ⟨x0, y0, image.placement.width, image.placement.height⟩ x y) :
    f1 x y = f x y := by
  cases hc : image.content with
  | subpixelMask =>
    rw [(write_glyph_image_eq_none_iff image dc f x0 y0).2 hc] at hw
    simp at hw
  | mask =>
    simp only [write_glyph_image, hc, Option.some.injEq] at hw
    subst hw
    exact if_neg fun hcon => hout ⟨hcon.1, hcon.2.1, hcon.2.2.1, hcon.2.2.2.1⟩
  | color =>
    simp only [write_glyph_image, hc, Option.some.injEq] at hw
    subst hw
    exact if_neg fun hcon => hout ⟨hcon.1, hcon.2.1, hcon.2.2.1, hcon.2.2.2.1⟩

/-- Inside its box, `write_glyph_image` writes the same pixels as a
standalone write of the bitmap into a transparent buffer at the origin,
provided the underlying pixel was transparent. -/
theorem write_inside (image : SwashImage) (dc : Color32) (f : Nat → Nat → Color32)
    (x0 y0 : Nat) (f1 g1 : Nat → Nat → Color32)
    (hw : write_glyph_image image dc f x0 y0 = some f1)
    (hw0 : write_glyph_image image dc (fun _ _ => Color32.TRANSPARENT) 0 0 = some g1)
    (dx dy : Nat) (hdx : dx < image.placement.width)
    (hdy : dy < image.placement.height)
    (hbase : f (x0 + dx) (y0 + dy) = Color32.TRANSPARENT) :
    f1 (x0 + dx) (y0 + dy) = g1 dx dy := by
  cases hc : image.content with
  | subpixelMask =>
    rw [(write_glyph_image_eq_none_iff image dc f x0 y0).2 hc] at hw
    simp at hw
  | mask =>
    simp only [write_glyph_image, hc, Option.some.injEq] at hw hw0
    subst hw
    subst hw0
    simp only [Nat.add_sub_cancel_left, Nat.sub_zero, Nat.zero_add, Nat.zero_le,
      Nat.le_add_right, add_lt_add_iff_left, hdx, hdy, true_and]
    by_cases hlt : dy * image.placement.width + dx < image.data.length
    · rw [if_pos hlt, if_pos hlt]
    · rw [if_neg hlt, if_neg hlt]
      exact hbase
  | color =>
    simp only [write_glyph_image, hc, Option.some.injEq] at hw hw0
    subst hw
    subst hw0
    simp only [Nat.add_sub_cancel_left, Nat.sub_zero, Nat.zero_add, Nat.zero_le,
      Nat.le_add_right, add_lt_add_iff_left, hdx, hdy, true_and]
    by_cases hlt : dy * image.placement.width + dx < image.data.length / 4
    · rw [if_pos hlt, if_pos hlt]
    · rw [if_neg hlt, if_neg hlt]
      exact hbase

/-- The growth copy loop does not touch pixels outside every entry's box. -/
theorem grow_image_untouched (R : Rasterizer) (dc : Color32) :
    ∀ (l : List (CacheKey × Option GlyphState)) (f F : Nat → Nat → Color32),
      grow_image R dc l f = .ok F →
      ∀ x y, (∀ e ∈ l, ∀ b, entryBox R e = some b → ¬ inBox b x y) →
      F x y = f x y := by
  intro l
  induction l with
  | nil =>
    intro f F h x y hout
    rw [grow_image] at h
    simp only [Except.ok.injEq] at h
    rw [← h]
  | cons e t ih =>
    intro f F h x y hout
    obtain ⟨k, v⟩ := e
    cases v with
    | none =>
      rw [grow_image] at h
      exact ih f F h x y fun e1 he1 => hout e1 (List.mem_cons_of_mem _ he1)
    | some g =>
      cases hR : R k with
      | none => simp [grow_image, hR] at h
      | some image =>
        cases hw : write_glyph_image image dc f
            g.allocation.rectangle.min.x.toNat g.allocation.rectangle.min.y.toNat with
        | none => simp [grow_image, hR, hw] at h
        | some f2 =>
          simp only [grow_image, hR, hw] at h
          have hF : F x y = f2 x y :=
            ih f2 F h x y fun e1 he1 => hout e1 (List.mem_cons_of_mem _ he1)
          rw [hF]
          refine write_outside image dc f _ _ f2 hw x y ?_
          refine hout (k, some g) (List.mem_cons_self _ _)
            ⟨g.allocation.rectangle.min.x.toNat, g.allocation.rectangle.min.y.toNat,
              image.placement.width, image.placement.height⟩ ?_
          simp [entryBox, hR]

/-- On a pairwise-disjoint entry list over a transparent base, the growth
copy loop makes every `Sized` entry's box hold exactly the standalone write
of its re-rasterized bitmap. -/
theorem grow_image_pixels (R : Rasterizer) (dc : Color32) :
    ∀ (l : List (CacheKey × Option GlyphState)) (f F : Nat → Nat → Color32),
      grow_image R dc l f = .ok F →
      List.Pairwise (EntryDisj R) l →
      (∀ e ∈ l, ∀ b, entryBox R e = some b →
        ∀ x y, inBox b x y → f x y = Color32.TRANSPARENT) →
      ∀ k g image, (k, some g) ∈ l → R k = some image →
      ∀ g1, write_glyph_image image dc (fun _ _ => Color32.TRANSPARENT) 0 0 = some g1 →
      ∀ dx dy, dx < image.placement.width → dy < image.placement.height →
        F (g.allocation.rectangle.min.x.toNat + dx)
          (g.allocation.rectangle.min.y.toNat + dy) = g1 dx dy := by
  intro l
  induction l with
  | nil =>
    intro f F h hdisj htr k g image hm
    simp at hm
  | cons e t ih =>
    intro f F h hdisj htr k g image hm hR g1 hw1 dx dy hdx hdy
    obtain ⟨k1, v1⟩ := e
    have hmemBox : inBox ⟨g.allocation.rectangle.min.x.toNat,
        g.allocation.rectangle.min.y.toNat, image.placement.width,
        image.placement.height⟩ (g.allocation.rectangle.min.x.toNat + dx)
        (g.allocation.rectangle.min.y.toNat + dy) :=
      ⟨Nat.le_add_right _ _, Nat.add_lt_add_left hdx _,
        Nat.le_add_right _ _, Nat.add_lt_add_left hdy _⟩
    rcases List.mem_cons.1 hm with he | ht
    · cases he
      cases hw : write_glyph_image image dc f
          g.allocation.rectangle.min.x.toNat g.allocation.rectangle.min.y.toNat with
      | none => simp [grow_image, hR, hw] at h
      | some f2 =>
        simp only [grow_image, hR, hw] at h
        have hF : F (g.allocation.rectangle.min.x.toNat + dx)
            (g.allocation.rectangle.min.y.toNat + dy) =
            f2 (g.allocation.rectangle.min.x.toNat + dx)
              (g.allocation.rectangle.min.y.toNat + dy) := by
          refine grow_image_untouched R dc t f2 F h _ _ ?_
          intro e1 he1 b1 hb1
          intro hin1
          exact (List.pairwise_cons.1 hdisj).1 e1 he1
            ⟨g.allocation.rectangle.min.x.toNat, g.allocation.rectangle.min.y.toNat,
              image.placement.width, image.placement.height⟩ b1
            (by simp [entryBox, hR]) hb1 _ _ hmemBox hin1
        rw [hF]
        refine write_inside image dc f _ _ f2 g1 hw hw1 dx dy hdx hdy ?_
        exact htr (k, some g) (List.mem_cons_self _ _)
          ⟨g.allocation.rectangle.min.x.toNat, g.allocation.rectangle.min.y.toNat,
            image.placement.width, image.placement.height⟩
          (by simp [entryBox, hR]) _ _ hmemBox
    · cases v1 with
      | none =>
        rw [grow_image] at h
        exact ih f F h (List.pairwise_cons.1 hdisj).2
          (fun e1 he1 => htr e1 (List.mem_cons_of_mem _ he1))
          k g image ht hR g1 hw1 dx dy hdx hdy
      | some gHead =>
        cases hR1 : R k1 with
        | none => simp [grow_image, hR1] at h
        | some img1 =>
          cases hw : write_glyph_image img1 dc f
              gHead.allocation.rectangle.min.x.toNat
              gHead.allocation.rectangle.min.y.toNat with
          | none => simp [grow_image, hR1, hw] at h
          | some f2 =>
            simp only [grow_image, hR1, hw] at h
            refine ih f2 F h (List.pairwise_cons.1 hdisj).2 ?_
              k g image ht hR g1 hw1 dx dy hdx hdy
            intro e1 he1 b1 hb1 x y hin1
            have hstep : f2 x y = f x y := by
              refine write_outside img1 dc f _ _ f2 hw x y ?_
              intro hinHead
              exact EntryDisj_symm R _ _
                ((List.pairwise_cons.1 hdisj).1 e1 he1) b1
                ⟨gHead.allocation.rectangle.min.x.toNat,
                  gHead.allocation.rectangle.min.y.toNat,
                  img1.placement.width, img1.placement.height⟩ hb1
                (by simp [entryBox, hR1]) x y hin1 hinHead
            rw [hstep]
            exact htr e1 (List.mem_cons_of_mem _ he1) b1 hb1 x y hin1

/-- C1 is false as stated: growing `stC1` with the source's `grow` leaves the
entry's stored packer region unchanged at corner `(0, 0)` — the code performs
no re-packing at all — whereas the claimed behavior (`grow_specModel`, the
spec's words) re-packs the entry into the fresh region with corner `(40, 0)`
of the grown packer and updates the stored region to it; the two stored
regions differ. -/
theorem claim_C1_counterexample :
    (TextureAtlas.grow sops maskR stC1).map (fun s => Cache.lookup s.cache 3) =
      .ok (some (some gs0)) ∧
    (TextureAtlas.grow_specModel sops maskR stC1).map (fun s => Cache.lookup s.cache 3) =
      .ok (some (some { gs0 with allocation := ⟨5, ⟨⟨40, 0⟩, ⟨42, 2⟩⟩⟩ })) ∧
    gs0.allocation.rectangle ≠ (⟨⟨40, 0⟩, ⟨42, 2⟩⟩ : Rectangle) := by
  refine ⟨rfl, rfl, by decide⟩

/-- C1 (amended): when the atlas grows, no re-packing happens: the packer
only has its bookkeeping grown, the cache — including every `Sized` entry's
stored region — is left exactly as it was, and every currently-cached
`Sized` entry is re-rasterized and its bitmap copied into the fresh backing
store at its EXISTING stored region (stated pixel-for-pixel against the
standalone write of the bitmap, under the packer's guarantee that live
regions are pairwise disjoint). -/
theorem claim_C1_amended (ops : PackerOps P) (R : Rasterizer)
    (s s1 : TextureAtlas P) (h : TextureAtlas.grow ops R s = .ok s1)
    (hdisj : List.Pairwise (EntryDisj R) s.cache) :
    s1.cache = s.cache ∧
    s1.packer = ops.grow s.packer (min (s.atlas_side * 2) s.max_texture_side) ∧
    s1.atlas_side = min (s.atlas_side * 2) s.max_texture_side ∧
    (∀ k g image, (k, some g) ∈ s.cache → R k = some image →
      ∀ g1, write_glyph_image image s.default_color
        (fun _ _ => Color32.TRANSPARENT) 0 0 = some g1 →
      ∀ dx dy, dx < image.placement.width → dy < image.placement.height →
        s1.texture.image.pix (g.allocation.rectangle.min.x.toNat + dx)
          (g.allocation.rectangle.min.y.toNat + dy) = g1 dx dy) := by
  obtain ⟨hlt, hside, hpack, hcache, -, -, -, -, -, -, -, hpix⟩ :=
    grow_ok_inversion ops R s s1 h
  refine ⟨hcache, hpack, hside, ?_⟩
  intro k g image hm hR g1 hw1 dx dy hdx hdy
  have hdisj1 : List.Pairwise (EntryDisj R) s.cache.reverse :=
    List.pairwise_reverse.2 (hdisj.imp fun hd => EntryDisj_symm R _ _ hd)
  exact grow_image_pixels R s.default_color s.cache.reverse _ _ hpix hdisj1
    (fun e he b hb x y hin => rfl) k g image (List.mem_reverse.2 hm) hR
    g1 hw1 dx dy hdx hdy

theorem claim_C1_amended_witness :
    (TextureAtlas.grow sops maskR stC1).map (fun s => s.cache) = .ok stC1.cache ∧
    (TextureAtlas.grow sops maskR stC1).map (fun s => s.texture.image.pix 1 1) =
      .ok (Color32.from_rgba_unmultiplied dcol.r dcol.g dcol.b 40) := by
  have hok : (TextureAtlas.grow sops maskR stC1).isOk = true := rfl
  cases hg : TextureAtlas.grow sops maskR stC1 with
  | error e =>
    rw [hg] at hok
    simp [Except.isOk, Except.toBool] at hok
  | ok s1 =>
    have hdisj : List.Pairwise (EntryDisj maskR) stC1.cache := by
      simp [stC1]
    obtain ⟨h1, -, -, h4⟩ := claim_C1_amended sops maskR stC1 s1 hg hdisj
    cases hw1 : write_glyph_image maskImg stC1.default_color
        (fun _ _ => Color32.TRANSPARENT) 0 0 with
    | none =>
      exact absurd ((write_glyph_image_eq_none_iff maskImg stC1.default_color
        (fun _ _ => Color32.TRANSPARENT) 0 0).1 hw1) (by decide)
    | some g1 =>
      have h5 : s1.texture.image.pix 1 1 = g1 1 1 :=
        h4 3 gs0 maskImg (by decide) rfl g1 hw1 1 1 (by decide) (by decide)
      have hv : (write_glyph_image maskImg stC1.default_color
          (fun _ _ => Color32.TRANSPARENT) 0 0).map (fun f => f 1 1) =
          some (Color32.from_rgba_unmultiplied dcol.r dcol.g dcol.b 40) := rfl
      rw [hw1] at hv
      simp only [Option.map, Option.some.injEq] at hv
      constructor
      · simp only [Except.map]
        rw [h1]
      · simp only [Except.map]
        rw [h5, hv]

end Atlas
